import Mathlib

/-!
Shallow embedding of the ARGO NetCDF ingestion-and-indexing pipeline
(`src/backend/argo_data_pipeline.py`) in Lean 4, together with proofs of the
specified properties.

Modelling conventions:
* Python floats are modelled as `ℚ`; a float value that may be NaN is
  modelled as `Option ℚ` with `none` standing for NaN (`np.isnan x ↔ x = none`).
* The NetCDF dataset is modelled by `RawProfile` records: per profile index the
  file carries latitude, longitude, cycle number, Julian-day timestamp and the
  parallel depth-level arrays TEMP/PSAL/PRES.  The three parallel arrays are
  represented as one list of `Level` triples (they share the depth dimension).
* The Julian-day timestamp is abstracted to `Option ℚ` (`none` = missing or
  unparsable); `process_netcdf_file` substitutes the current time `now`, which
  is passed explicitly.
* Stateful Python objects become explicit state passing; exceptions become
  `Except`; the relational tables become association lists keyed by the
  primary-key string.
-/

/-- Possibly-NaN float value: `none` is NaN. -/
abbrev Val := Option ℚ

/-- One depth level of a profile: the TEMP, PSAL, PRES readings at that level. -/
structure Level where
  temp : Val
  sal : Val
  pres : Val
deriving DecidableEq, Repr

/-- One profile (cycle) of the dataset: scalar attributes plus the depth-level
array (`levels.length` is `len(temps)`, the total level count `N`). -/
structure RawProfile where
  platform_number : String
  cycle_number : Int
  latitude : ℚ
  longitude : ℚ
  juld : Option ℚ
  levels : List Level
deriving DecidableEq, Repr

/-- One stored measurement row (`argo_floats` table / the dict built at
lines 224–242 of `argo_data_pipeline.py`). -/
structure Measurement where
  id : String
  platform_number : String
  cycle_number : Int
  latitude : ℚ
  longitude : ℚ
  measurement_time : ℚ
  temperature : ℚ
  salinity : ℚ
  pressure : ℚ
  depth : ℚ
  quality_flag : String
  ocean_region : String
  data_source : String
deriving DecidableEq, Repr

/-- Aggregate {min, max, mean} triple used for the profile summary ranges. -/
structure RangeStat where
  min : ℚ
  max : ℚ
  mean : ℚ
deriving DecidableEq, Repr

/-- One stored profile summary row (`argo_profiles` table / the dict built at
lines 262–295 of `argo_data_pipeline.py`).  The rendered `summary_text` string
is abstracted to the token list used by the embedding index. -/
structure ProfileSummary where
  id : String
  platform_number : String
  cycle_number : Int
  profile_date : ℚ
  latitude : ℚ
  longitude : ℚ
  max_depth : ℚ
  num_measurements : Nat
  temperature_range : RangeStat
  salinity_range : RangeStat
  pressure_range : RangeStat
  ocean_region : String
  data_quality_score : ℚ
  summary_text : List String
  file_source : String
  total_levels : Nat
  valid_levels : Nat
deriving DecidableEq, Repr

/-! ## §4.2 RegionClassifier (`determine_ocean_region`, lines 147–165) -/

/-- Rule 1 box: lon ∈ [-180,-60], lat ∈ [10,70]. -/
def inNorthAtlantic (lat lon : ℚ) : Bool :=
  -180 ≤ lon && lon ≤ -60 && 10 ≤ lat && lat ≤ 70

/-- Rule 2 box: lon ∈ [60,180], lat ∈ [10,70]. -/
def inNorthPacific (lat lon : ℚ) : Bool :=
  60 ≤ lon && lon ≤ 180 && 10 ≤ lat && lat ≤ 70

/-- Rule 3 box: lon ∈ [-60,20], lat ∈ [-60,10]. -/
def inSouthAtlantic (lat lon : ℚ) : Bool :=
  -60 ≤ lon && lon ≤ 20 && -60 ≤ lat && lat ≤ 10

/-- Rule 4 box: lon ∈ [20,180], lat ∈ [-60,10]. -/
def inSouthPacific (lat lon : ℚ) : Bool :=
  20 ≤ lon && lon ≤ 180 && -60 ≤ lat && lat ≤ 10

/-- Rule 5 box: lon ∈ [20,120], lat ∈ [-40,30]. -/
def inIndianOcean (lat lon : ℚ) : Bool :=
  20 ≤ lon && lon ≤ 120 && -40 ≤ lat && lat ≤ 30

/-- Rule 6: lat > 70. -/
def inArctic (lat _lon : ℚ) : Bool := 70 < lat

/-- Rule 7: lat < -60. -/
def inSouthern (lat _lon : ℚ) : Bool := lat < -60

/-- The classifier: the `if/elif` chain of `determine_ocean_region`
(lines 150–165), first match wins, `"Unknown"` as the final `else`. -/
def determine_ocean_region (lat lon : ℚ) : String :=
  if inNorthAtlantic lat lon then "North Atlantic"
  else if inNorthPacific lat lon then "North Pacific"
  else if inSouthAtlantic lat lon then "South Atlantic"
  else if inSouthPacific lat lon then "South Pacific"
  else if inIndianOcean lat lon then "Indian Ocean"
  else if inArctic lat lon then "Arctic Ocean"
  else if inSouthern lat lon then "Southern Ocean"
  else "Unknown"

/-- The ordered rule table of §4.2 (rules 1–7; rule 8 is the default). -/
def regionRules : List ((ℚ → ℚ → Bool) × String) :=
  [(inNorthAtlantic, "North Atlantic"),
   (inNorthPacific, "North Pacific"),
   (inSouthAtlantic, "South Atlantic"),
   (inSouthPacific, "South Pacific"),
   (inIndianOcean, "Indian Ocean"),
   (inArctic, "Arctic Ocean"),
   (inSouthern, "Southern Ocean")]

/-- Generic first-match evaluation of an ordered rule table with a default. -/
def firstMatch (rules : List ((ℚ → ℚ → Bool) × String)) (dflt : String)
    (lat lon : ℚ) : String :=
  match rules with
  | [] => dflt
  | (p, name) :: rest => if p lat lon then name else firstMatch rest dflt lat lon

/-- The 8 region names the classifier can produce. -/
def regionNames : List String :=
  ["North Atlantic", "North Pacific", "South Atlantic", "South Pacific",
   "Indian Ocean", "Arctic Ocean", "Southern Ocean", "Unknown"]

/-! ## §4.1 UnitConverter (`pressure_to_depth`, lines 305–308) -/

/-- Pressure (dbar) to depth (m): multiply by the literal constant 1.019716. -/
def pressure_to_depth (pressure : ℚ) : ℚ := pressure * (1019716 / 1000000)

/-! ## §4.3 DatasetDecoder + ProfileAggregator (`process_netcdf_file`, lines 167–303) -/

/-- A level is valid when none of temperature, salinity, pressure is NaN
(line 219: `not (np.isnan temp or np.isnan sal or np.isnan pressure)`). -/
def validLevel (l : Level) : Bool :=
  l.temp.isSome && l.sal.isSome && l.pres.isSome

/-- The measurement dict built for a valid level (lines 220–242).  `idx` is the
level index; `t`, `s`, `pr` are the (non-NaN) readings. -/
def mkMeasurement (p : RawProfile) (now : ℚ) (file_path : String)
    (idx : Nat) (t s pr : ℚ) : Measurement :=
  { id := p.platform_number ++ "_" ++ toString p.cycle_number ++ "_" ++ toString idx
    platform_number := p.platform_number
    cycle_number := p.cycle_number
    latitude := p.latitude
    longitude := p.longitude
    measurement_time := p.juld.getD now
    temperature := t
    salinity := s
    pressure := pr
    depth := pressure_to_depth pr
    quality_flag := "good"
    ocean_region := determine_ocean_region p.latitude p.longitude
    data_source := file_path }

/-- The `valid_measurements` list for one profile: iterate the depth levels in
order, keep exactly the levels with all three readings non-NaN (lines 213–248). -/
def validMeasurements (p : RawProfile) (now : ℚ) (file_path : String) :
    List Measurement :=
  p.levels.enum.filterMap fun il =>
    match il.2.temp, il.2.sal, il.2.pres with
    | some t, some s, some pr => some (mkMeasurement p now file_path il.1 t s pr)
    | _, _, _ => none

/-- Minimum of a list, seeded by its first element (Python `min` on a nonempty
list); returns 0 on `[]`, which the decoder never reaches (guarded by
`if valid_measurements`). -/
def qmin : List ℚ → ℚ
  | [] => 0
  | x :: xs => xs.foldl min x

/-- Maximum of a list, seeded by its first element (Python `max` on a nonempty
list); returns 0 on `[]`, which the decoder never reaches. -/
def qmax : List ℚ → ℚ
  | [] => 0
  | x :: xs => xs.foldl max x

/-- Arithmetic mean (`np.mean`); `[]` gives 0 (never reached by the decoder). -/
def qmean (l : List ℚ) : ℚ := l.sum / (l.length : ℚ)

/-- The {min, max, mean} aggregate of one reading list (lines 271–285). -/
def mkRange (l : List ℚ) : RangeStat :=
  { min := qmin l, max := qmax l, mean := qmean l }

/-- The fixed-template summary sentence (lines 255–260), abstracted to its
token list: the rendered numbers are kept as `toString` of the exact rationals
rather than 2-decimal prints, which no claim depends on. -/
def mkSummaryText (p : RawProfile) (region : String) (nValid : Nat) : List String :=
  ["ARGO", "float", p.platform_number, "profile", toString p.cycle_number,
   "at", toString p.latitude, toString p.longitude, "in", region,
   "with", toString nValid, "measurements"]

/-- The profile-summary dict built when at least one valid level exists
(lines 252–295).  `ms` is the `valid_measurements` list, `totalLevels` is
`len(temps)`. -/
def buildProfile (p : RawProfile) (now : ℚ) (file_path : String)
    (ms : List Measurement) (totalLevels : Nat) : ProfileSummary :=
  let temp_list := ms.map (·.temperature)
  let sal_list := ms.map (·.salinity)
  let pres_list := ms.map (·.pressure)
  let region := determine_ocean_region p.latitude p.longitude
  { id := p.platform_number ++ "_" ++ toString p.cycle_number
    platform_number := p.platform_number
    cycle_number := p.cycle_number
    profile_date := p.juld.getD now
    latitude := p.latitude
    longitude := p.longitude
    max_depth := qmax (ms.map (·.depth))
    num_measurements := ms.length
    temperature_range := mkRange temp_list
    salinity_range := mkRange sal_list
    pressure_range := mkRange pres_list
    ocean_region := region
    data_quality_score := (ms.length : ℚ) / (totalLevels : ℚ)
    summary_text := mkSummaryText p region ms.length
    file_source := file_path
    total_levels := totalLevels
    valid_levels := ms.length }

/-- Processing of one profile index of the file: the body of the
`for cycle_idx` loop (lines 182–295).  Returns the valid measurements and the
profile summary built for this index (`none` when no level is valid). -/
def processProfile (p : RawProfile) (now : ℚ) (file_path : String) :
    List Measurement × Option ProfileSummary :=
  let ms := validMeasurements p now file_path
  (ms, if ms.isEmpty then none
       else some (buildProfile p now file_path ms p.levels.length))

/-- Model of `process_netcdf_file` (lines 167–299): fold over the profile indices;
`float_data` accumulates all valid measurements (`float_data.extend`,
line 249) while `profile_data` is a single slot overwritten by every profile
index that has at least one valid level (line 262). -/
def process_netcdf_file (profiles : List RawProfile) (now : ℚ)
    (file_path : String) : List Measurement × Option ProfileSummary :=
  profiles.foldl
    (fun acc p =>
      let r := processProfile p now file_path
      (acc.1 ++ r.1, match r.2 with
                     | some prof => some prof
                     | none => acc.2))
    ([], none)

/-! ## Store model (`store_to_postgresql`, lines 310–337)

The two relational tables are association lists keyed by the primary-key
string; `session.merge` is upsert-by-primary-key (insert or overwrite). -/

/-- Upsert-by-key into an association list: overwrite every entry carrying the
key if the key is present, append otherwise (`session.merge` semantics). -/
def upsert {α : Type} (s : List (String × α)) (k : String) (v : α) :
    List (String × α) :=
  if s.any (fun q => q.1 = k) then
    s.map (fun q => if q.1 = k then (k, v) else q)
  else s ++ [(k, v)]

/-- Key list of an association list. -/
def keysOf {α : Type} (s : List (String × α)) : List String := s.map (·.1)

/-- The two tables of the relational store. -/
structure DB where
  argo_floats : List (String × Measurement)
  argo_profiles : List (String × ProfileSummary)
deriving Repr

/-- Model of `store_to_postgresql` (lines 310–337): merge every measurement row by its
id, then merge the profile summary by its id when one is present; the whole
batch commits atomically (failure is modelled at the pipeline layer). -/
def store_to_postgresql (db : DB) (float_data : List Measurement)
    (profile_data : Option ProfileSummary) : DB :=
  { argo_floats := float_data.foldl (fun s m => upsert s m.id m) db.argo_floats
    argo_profiles :=
      match profile_data with
      | some prof => upsert db.argo_profiles prof.id prof
      | none => db.argo_profiles }

/-! ## §4.4 EmbeddingIndex (`create_vector_embedding`, lines 339–358;
vector store, lines 360–422)

Texts are modelled as token lists (`List String`): the library's tokenizer and
English stop-word removal are abstracted into the tokenization.  Fitting the
TF-IDF vectorizer on the single-document corpus `[text]` gives every term the
same idf, so the transform of a document is its vector of per-vocabulary-word
term counts up to the library's L2 normalisation, which rescales every vector
by a positive factor and therefore changes neither the vector length, nor the
zero pattern, nor any cosine similarity; the model keeps the unnormalised
counts. -/

/-- Tokenized text. -/
abbrev Text := List String

/-- The `TfidfVectorizer(max_features=1000, stop_words='english')` state:
`vocabulary` is `none` before the single `fit` (no `vocabulary_` attribute). -/
structure Vectorizer where
  max_features : Nat
  vocabulary : Option (List String)
deriving DecidableEq, Repr

/-- The processor's initial vectorizer (line 90): `max_features=1000`, unfit. -/
def initVectorizer : Vectorizer := { max_features := 1000, vocabulary := none }

/-- Vocabulary learned by fitting on the single-document corpus `[doc]`: the
distinct terms of `doc`, capped at `max_features` (the library keeps the
`max_features` highest-frequency terms; the cap size is what the claims use). -/
def fitVocab (max_features : Nat) (doc : Text) : List String :=
  doc.dedup.take max_features

/-- Transform of one document against a fixed vocabulary: one coordinate per
vocabulary word, holding that word's term count in the document (see the
section comment for the dropped constant idf factor and L2 normalisation). -/
def transform (vocab : List String) (doc : Text) : List ℚ :=
  vocab.map (fun w => ((doc.count w : Nat) : ℚ))

/-- Model of `create_vector_embedding` (lines 339–354), success path: fit the vectorizer
on `[text]` if it has no vocabulary yet, then transform `text`; returns the
updated vectorizer state and the vector. -/
def create_vector_embedding (vz : Vectorizer) (text : Text) :
    Vectorizer × List ℚ :=
  match vz.vocabulary with
  | none =>
    let vocab := fitVocab vz.max_features text
    ({ vz with vocabulary := some vocab }, transform vocab text)
  | some vocab => (vz, transform vocab text)

/-- The failure fallback of `create_vector_embedding` (line 358):
`np.zeros(1000)`. -/
def zeroFallback : List ℚ := List.replicate 1000 0

/-- One entry of the in-memory vector store (lines 372–384): vector, metadata
snapshot (abstracted to the region string), and the source text. -/
structure VEntry where
  vector : List ℚ
  metadata : String
  text : Text
deriving DecidableEq, Repr

/-- The in-memory vector store: a Python dict keyed by profile id, in insertion
order; assignment to an existing key overwrites in place (`upsert`). -/
abbrev VectorStore := List (String × VEntry)

/-- Model of `store_to_vector_database` (lines 360–393): embed the profile's summary
text and upsert the entry under the profile id; a profile of `none` is a
no-op (line 362). -/
def store_to_vector_database (st : VectorStore) (vz : Vectorizer)
    (profile_data : Option ProfileSummary) : VectorStore × Vectorizer :=
  match profile_data with
  | none => (st, vz)
  | some prof =>
    let r := create_vector_embedding vz prof.summary_text
    (upsert st prof.id
       { vector := r.2, metadata := prof.ocean_region, text := prof.summary_text },
     r.1)

/-- Exact representation of a cosine-similarity value: the dot product `num`
and the product of the two squared norms `den2`; the real value is
`num / sqrt den2` (0 when `den2 = 0`, matching the library's zero-vector
convention). -/
structure SimVal where
  num : ℚ
  den2 : ℚ
deriving DecidableEq, Repr

/-- Dot product of two vectors (missing coordinates = 0). -/
def dotQ (u v : List ℚ) : ℚ := (List.zipWith (· * ·) u v).sum

/-- Sum of squares of a vector. -/
def ssq (u : List ℚ) : ℚ := dotQ u u

/-- The real cosine-similarity value a `SimVal` denotes. -/
noncomputable def SimVal.toReal (s : SimVal) : ℝ :=
  (s.num : ℝ) / Real.sqrt (s.den2 : ℝ)

/-- Exact rational sort key which is strictly monotone in `SimVal.toReal` (for
nonnegative `den2`): the signed square `num * |num| / den2`, with 0 when
`den2 = 0`. -/
def SimVal.key (s : SimVal) : ℚ :=
  if s.den2 = 0 then 0 else s.num * |s.num| / s.den2

/-- One search result (`{profile_id, similarity, metadata, text}`,
lines 409–414). -/
structure SearchResult where
  profile_id : String
  similarity : SimVal
  metadata : String
  text : Text
deriving DecidableEq, Repr

/-- The similarity row built for every stored entry, in store (insertion)
order (lines 405–414), given the already-computed query vector. -/
def simRows (st : VectorStore) (qv : List ℚ) : List SearchResult :=
  st.map fun e =>
    { profile_id := e.1
      similarity := { num := dotQ qv e.2.vector, den2 := ssq qv * ssq e.2.vector }
      metadata := e.2.metadata
      text := e.2.text }

/-- Descending comparison used by `similarities.sort(key=..., reverse=True)`:
`a` may precede `b` when `a`'s similarity is at least `b`'s. -/
def simGE (a b : SearchResult) : Bool := b.similarity.key ≤ a.similarity.key

/-- Model of `search_similar_profiles` (lines 395–422): empty store returns `[]`
(line 398); otherwise embed the query, build one similarity row per stored
entry, stable-sort descending by similarity and take the first `top_k`. -/
def search_similar_profiles (st : VectorStore) (vz : Vectorizer)
    (query_text : Text) (top_k : Nat) : List SearchResult :=
  if st.isEmpty then []
  else
    let qv := (create_vector_embedding vz query_text).2
    ((simRows st qv).mergeSort simGE).take top_k

/-! ## Persistence (`save_vector_store` / `load_vector_store`, lines 454–478) -/

/-- The pickled blob (lines 458–461): the full vector table and the vectorizer
state, serialized as one opaque unit; pickle round-trips both exactly. -/
structure Blob where
  vector_store : VectorStore
  vectorizer : Vectorizer
deriving Repr

/-- Model of `save_vector_store` (lines 454–464): dump both components into the blob. -/
def save_vector_store (st : VectorStore) (vz : Vectorizer) : Blob :=
  { vector_store := st, vectorizer := vz }

/-- Model of `load_vector_store` (lines 466–478) applied to an existing blob: replace
the processor's vector store and vectorizer (whatever they were — a fresh
processor has `[]` and `initVectorizer`) with the blob's components. -/
def load_vector_store (blob : Blob) (_st : VectorStore) (_vz : Vectorizer) :
    VectorStore × Vectorizer :=
  (blob.vector_store, blob.vectorizer)

/-! ## §4.5 IngestionPipeline (`process_directory`, lines 424–452) -/

/-- One `.nc` file of a directory, as the pipeline can observe it:
`corrupt` models a file-level read failure inside `process_netcdf_file`
(caught there, lines 301–303); `store_fails` models `store_to_postgresql`
raising for this file's batch (connectivity/constraint failure, rolled back
wholesale, lines 332–335). -/
structure NcFile where
  corrupt : Bool
  profiles : List RawProfile
  store_fails : Bool
deriving Repr

/-- The decoder as the pipeline sees it, with `process_netcdf_file`'s own
`try/except` folded in: a corrupt file yields `([], {})` (line 303). -/
def decodeFile (f : NcFile) (now : ℚ) (file_path : String) :
    List Measurement × Option ProfileSummary :=
  if f.corrupt then ([], none) else process_netcdf_file f.profiles now file_path

/-- The full mutable state the directory run touches. -/
structure PipeState where
  db : DB
  vstore : VectorStore
  vectorizer : Vectorizer
deriving Repr

/-- The body of the per-file loop (lines 436–448): decode; if any measurements
were produced, upsert them (which may raise, modelled by `store_fails`), then
index the profile summary if one was produced (`store_to_vector_database`
catches its own failures, lines 392–393, so it never raises). -/
def processFileStep (st : PipeState) (f : NcFile) (now : ℚ)
    (file_path : String) : Except String PipeState :=
  let r := decodeFile f now file_path
  if r.1.isEmpty then .ok st
  else if f.store_fails then .error "store failure"
  else
    let db2 := store_to_postgresql st.db r.1 r.2
    let v2 := store_to_vector_database st.vstore st.vectorizer r.2
    .ok { db := db2, vstore := v2.1, vectorizer := v2.2 }

/-- Model of `process_directory` (lines 424–452): a non-existent directory
(`dir = none`) is reported and nothing is processed (lines 427–429);
otherwise every file is processed in order inside its own `try/except`
(lines 435–452): a failing file leaves the state unchanged and the loop
continues with the next file. -/
def process_directory (dir : Option (List NcFile)) (st : PipeState) (now : ℚ) :
    PipeState :=
  match dir with
  | none => st
  | some files =>
    files.foldl
      (fun s f =>
        match processFileStep s f now "file.nc" with
        | .ok s2 => s2
        | .error _ => s)
      st

/-- Decidable test for whether the per-file step fails for a file: the step
raises exactly when the file decodes to a nonempty measurement list and its
store operation fails (independently of the incoming state). -/
def stepFails (f : NcFile) (now : ℚ) (file_path : String) : Bool :=
  !(decodeFile f now file_path).1.isEmpty && f.store_fails

/-! ## Query surface (`query_argo_data`, lines 481–542) -/

/-- One row as returned by the measurement query (lines 521–530). -/
structure FloatRow where
  measurement_time : ℚ
  latitude : ℚ
  longitude : ℚ
  temperature : ℚ
  salinity : ℚ
  depth : ℚ
  platform_number : String
  ocean_region : String
deriving DecidableEq, Repr

/-- Model of `query_argo_data` (lines 481–542) over the store's `argo_floats` rows:
each provided filter narrows the query — except that the region filter is
applied only when `region` is truthy and not the literal `'Unknown'`
(line 495); dates are modelled as rational timestamps, with `none` for an
absent (falsy) value; finally at most 1000 rows are returned (line 516). -/
def query_argo_data (rows : List FloatRow) (region : String)
    (start_date end_date : Option ℚ)
    (temperature_range salinity_range : Option (ℚ × ℚ)) : List FloatRow :=
  let q : List FloatRow := rows
  let q : List FloatRow :=
    if region ≠ "" ∧ region ≠ "Unknown"
    then q.filter (fun r => r.ocean_region = region) else q
  let q : List FloatRow :=
    match start_date with
    | some d => q.filter (fun r => d ≤ r.measurement_time)
    | none => q
  let q : List FloatRow :=
    match end_date with
    | some d => q.filter (fun r => r.measurement_time ≤ d)
    | none => q
  let q : List FloatRow :=
    match temperature_range with
    | some tr => q.filter (fun r => tr.1 ≤ r.temperature ∧ r.temperature ≤ tr.2)
    | none => q
  let q : List FloatRow :=
    match salinity_range with
    | some sr => q.filter (fun r => sr.1 ≤ r.salinity ∧ r.salinity ≤ sr.2)
    | none => q
  q.take 1000

/-! ## Concrete example inputs used by the witness theorems -/

/-- Example profile: 3 depth levels, of which 2 have all three readings finite
(level 1 has a NaN temperature). -/
def exProfile : RawProfile :=
  { platform_number := "wmo1", cycle_number := 1, latitude := 45,
    longitude := -100, juld := some 27000,
    levels := [{ temp := some 10, sal := some 35, pres := some 5 },
               { temp := none, sal := some 35, pres := some 6 },
               { temp := some 11, sal := some 34, pres := some 7 }] }

/-- Example file that decodes to a nonempty batch but whose store operation
fails. -/
def exBadStoreFile : NcFile :=
  { corrupt := false, profiles := [exProfile], store_fails := true }

/-- Example initial pipeline state: empty tables, empty vector store, unfit
vectorizer. -/
def exState : PipeState :=
  { db := { argo_floats := [], argo_profiles := [] },
    vstore := [], vectorizer := initVectorizer }

/-- Example stored measurement row located in the North Atlantic. -/
def exRow : FloatRow :=
  { measurement_time := 5, latitude := 45, longitude := -100,
    temperature := 10, salinity := 35, depth := 100,
    platform_number := "wmo1", ocean_region := "North Atlantic" }

/-- Example vector-store entry whose vector is the count vector of "warm" over
the vocabulary ["warm"]. -/
def exEntryA : String × VEntry :=
  ("prof_a", { vector := [1], metadata := "North Atlantic", text := ["warm"] })

/-- Second example vector-store entry with the same vector as `exEntryA`, so
the two entries tie on similarity for every query. -/
def exEntryB : String × VEntry :=
  ("prof_b", { vector := [1], metadata := "South Atlantic", text := ["warm"] })

/-- Example vectorizer already fitted on the one-word document "warm". -/
def exFitVectorizer : Vectorizer :=
  { max_features := 1000, vocabulary := some ["warm"] }

/-! # Theorems -/

/-! ## C2 — region classifier -/

/-- C2: for every (lat, lon) pair the region classifier is total (a total Lean
function by construction — no partial operation occurs in its body) and
returns exactly one of the 8 named regions, and it equals first-match
evaluation of §4.2's ordered rule table 1–7 (with rule 8, "Unknown", as the
default), whose box-bound comparisons are all inclusive (`≤`) and whose
polar rules 6–7 are the strict `lat > 70` / `lat < -60` exactly as the spec
writes them. -/
theorem C2_region_classifier_total_first_match (lat lon : ℚ) :
    determine_ocean_region lat lon ∈ regionNames ∧
    determine_ocean_region lat lon = firstMatch regionRules "Unknown" lat lon := by
  constructor
  · unfold determine_ocean_region regionNames
    split_ifs <;> simp
  · rfl

/-! ## C1 — per-profile decode counts and quality score -/

/-- Helper: along any enumeration suffix of the level array, the decoder keeps
exactly the levels whose three readings are all non-NaN. -/
theorem length_keptLevels (p : RawProfile) (now : ℚ) (fp : String) :
    ∀ (ls : List Level) (n : Nat),
      ((List.enumFrom n ls).filterMap (fun il =>
        match il.2.temp, il.2.sal, il.2.pres with
        | some t, some s, some pr => some (mkMeasurement p now fp il.1 t s pr)
        | _, _, _ => none)).length = (ls.filter (fun l => validLevel l)).length := by
  intro ls
  induction ls with
  | nil => intro n; rfl
  | cons a t ih =>
    intro n
    simp only [List.enumFrom, List.filterMap_cons, List.filter_cons]
    cases hT : a.temp <;> cases hS : a.sal <;> cases hP : a.pres <;>
      simp [validLevel, hT, hS, hP, ih]

/-- Helper: the `valid_measurements` list of one profile has exactly as many
entries as the profile has fully-finite levels. -/
theorem validMeasurements_length (p : RawProfile) (now : ℚ) (fp : String) :
    (validMeasurements p now fp).length = (p.levels.filter (fun l => validLevel l)).length := by
  unfold validMeasurements
  exact length_keptLevels p now fp p.levels 0

/-- C1: for every profile with N depth levels of which K are fully finite, the
decoder emits exactly K measurements; if K > 0 it emits exactly one profile
summary whose `data_quality_score` is K/N (denominator = total level count);
if K = 0 it emits no profile and no measurements for that profile index. -/
theorem C1_valid_levels_measurements_quality (p : RawProfile) (now : ℚ) (fp : String) :
    (processProfile p now fp).1.length = (p.levels.filter (fun l => validLevel l)).length ∧
    (0 < (p.levels.filter (fun l => validLevel l)).length →
      ∃ prof, (processProfile p now fp).2 = some prof ∧
        prof.data_quality_score =
          ((p.levels.filter (fun l => validLevel l)).length : ℚ) / (p.levels.length : ℚ)) ∧
    ((p.levels.filter (fun l => validLevel l)).length = 0 →
      (processProfile p now fp).1 = [] ∧ (processProfile p now fp).2 = none) := by
  have hlen := validMeasurements_length p now fp
  refine ⟨hlen, ?_, ?_⟩
  · intro hpos
    have hne : (validMeasurements p now fp).isEmpty = false := by
      rw [List.isEmpty_eq_false_iff_exists_mem]
      rcases List.exists_mem_of_length_pos (hlen ▸ hpos) with ⟨m, hm⟩
      exact ⟨m, hm⟩
    refine ⟨buildProfile p now fp (validMeasurements p now fp) p.levels.length, ?_, ?_⟩
    · simp [processProfile, hne]
    · simp only [buildProfile, hlen]
  · intro h0
    have hnil : validMeasurements p now fp = [] :=
      List.length_eq_zero.mp (hlen.trans h0)
    constructor
    · simpa [processProfile] using hnil
    · simp [processProfile, hnil]

/-- Witness for C1 at `exProfile` (3 levels, 2 valid): the hypothesis K > 0 is
discharged concretely and the profile summary's quality score is 2/3. -/
theorem C1_witness :
    0 < ((exProfile.levels.filter (fun l => validLevel l)).length) ∧
    ∃ prof, (processProfile exProfile 27000 "f.nc").2 = some prof ∧
      prof.data_quality_score =
        ((exProfile.levels.filter (fun l => validLevel l)).length : ℚ) /
          ((exProfile.levels.length : ℚ)) :=
  ⟨by decide, (C1_valid_levels_measurements_quality exProfile 27000 "f.nc").2.1 (by decide)⟩

/-! ## C10 — a single profile slot, overwritten per qualifying profile -/

/-- Helper: the last element of a cons list falls back to the head when the
tail has no last element. -/
theorem getLast?_cons_or {α : Type} (a : α) (l : List α) :
    (a :: l).getLast? = l.getLast?.or (some a) := by
  induction l generalizing a with
  | nil => rfl
  | cons b t ih =>
    rw [List.getLast?_cons_cons, ih b]
    cases h : t.getLast? <;> rfl

/-- Helper: closed form of the decoder's fold: the measurement lists of all
profile indices concatenate, while the single profile slot ends as the last
emitted summary (falling back to the accumulator's slot). -/
theorem process_netcdf_file_go (now : ℚ) (fp : String) :
    ∀ (profiles : List RawProfile) (acc : List Measurement × Option ProfileSummary),
      profiles.foldl
        (fun acc p =>
          let r := processProfile p now fp
          (acc.1 ++ r.1, match r.2 with
                         | some prof => some prof
                         | none => acc.2)) acc =
      (acc.1 ++ (profiles.map (fun p => (processProfile p now fp).1)).flatten,
       ((profiles.filterMap (fun p => (processProfile p now fp).2)).getLast?).or acc.2) := by
  intro profiles
  induction profiles with
  | nil => intro acc; simp
  | cons p ps ih =>
    intro acc
    rw [List.foldl_cons, ih]
    cases h : (processProfile p now fp).2 with
    | none =>
      simp [h, List.filterMap_cons, List.append_assoc]
    | some prof =>
      simp only [h, List.filterMap_cons, List.map_cons, List.flatten, getLast?_cons_or,
        List.append_assoc]
      cases hx : (ps.filterMap (fun p => (processProfile p now fp).2)).getLast? <;>
        simp [Option.or, hx]

/-- C10: for every input file, `process_netcdf_file` returns the concatenated
measurements of all profiles, but only a single profile summary — the one of
the last profile index with at least one valid level; every earlier qualifying
profile's summary is overwritten in place and never returned. -/
theorem C10_last_qualifying_profile_wins (profiles : List RawProfile) (now : ℚ)
    (fp : String) :
    process_netcdf_file profiles now fp =
      ((profiles.map (fun p => (processProfile p now fp).1)).flatten,
       (profiles.filterMap (fun p => (processProfile p now fp).2)).getLast?) := by
  unfold process_netcdf_file
  rw [process_netcdf_file_go]
  simp

/-! ## C5 — directory processing isolates per-file failures -/

/-- Helper: the per-file step raises exactly when `stepFails` says so, and a
failing file leaves any incoming state unchanged under the orchestration's
catch-and-continue. -/
theorem step_of_stepFails (f : NcFile) (now : ℚ) (st : PipeState)
    (h : stepFails f now "file.nc" = true) :
    processFileStep st f now "file.nc" = .error "store failure" := by
  unfold stepFails at h
  rw [Bool.and_eq_true, Bool.not_eq_true'] at h
  simp [processFileStep, h.1, h.2]

/-- C5: `process_directory` on a non-existent directory processes no files and
changes nothing; and for every directory, a file whose processing fails (in
decoding+storing, modelled by `stepFails`) leaves that file's contribution
empty and processing continues with the remaining files — the run returns a
state (total function), never propagating the per-file failure. -/
theorem C5_per_file_failure_isolation :
    (∀ (st : PipeState) (now : ℚ), process_directory none st now = st) ∧
    (∀ (pre post : List NcFile) (f : NcFile) (st : PipeState) (now : ℚ),
      stepFails f now "file.nc" = true →
      process_directory (some (pre ++ f :: post)) st now =
        process_directory (some (pre ++ post)) st now) := by
  refine ⟨fun st now => rfl, ?_⟩
  intro pre post f st now hf
  simp only [process_directory]
  rw [List.foldl_append, List.foldl_append, List.foldl_cons]
  congr 1
  rw [step_of_stepFails f now _ hf]

/-- Witness for C5: a concrete file that decodes to a nonempty batch but whose
store fails is skipped — the run over just that file returns the state the
empty run returns. -/
theorem C5_witness :
    stepFails exBadStoreFile 27000 "file.nc" = true ∧
    process_directory (some [exBadStoreFile]) exState 27000 =
      process_directory (some []) exState 27000 :=
  ⟨by decide,
   C5_per_file_failure_isolation.2 [] [] exBadStoreFile exState 27000 (by decide)⟩

/-! ## C7 — idempotent upsert -/

/-- Helper: the key-presence test of `upsert` agrees with key-list membership. -/
theorem any_eq_mem_keysOf {α : Type} (s : List (String × α)) (k : String) :
    (s.any (fun q => q.1 = k)) = true ↔ k ∈ keysOf s := by
  simp only [List.any_eq_true, decide_eq_true_eq, keysOf, List.mem_map]

/-- Helper: upserting a present key overwrites in place, keeping the key list. -/
theorem keysOf_upsert_mem {α : Type} (s : List (String × α)) (k : String) (v : α)
    (h : k ∈ keysOf s) : keysOf (upsert s k v) = keysOf s := by
  unfold upsert
  rw [if_pos ((any_eq_mem_keysOf s k).mpr h)]
  unfold keysOf
  rw [List.map_map]
  apply List.map_congr_left
  intro q _
  by_cases hqk : q.1 = k <;> simp [hqk]

/-- Helper: upserting an absent key appends it to the key list. -/
theorem keysOf_upsert_not_mem {α : Type} (s : List (String × α)) (k : String)
    (v : α) (h : k ∉ keysOf s) : keysOf (upsert s k v) = keysOf s ++ [k] := by
  unfold upsert
  rw [if_neg (fun hc => h ((any_eq_mem_keysOf s k).mp hc))]
  simp [keysOf]

/-- Helper: a table's row count is its key list's length. -/
theorem length_eq_keysOf_length {α : Type} (s : List (String × α)) :
    s.length = (keysOf s).length := by
  simp [keysOf]

/-- Helper: upserting never removes keys. -/
theorem keysOf_subset_upsert {α : Type} (s : List (String × α)) (k : String)
    (v : α) : keysOf s ⊆ keysOf (upsert s k v) := by
  by_cases h : k ∈ keysOf s
  · rw [keysOf_upsert_mem s k v h]
    exact fun a ha => ha
  · rw [keysOf_upsert_not_mem s k v h]
    exact List.subset_append_left _ _

/-- Helper: after upserting a key it is present. -/
theorem mem_keysOf_upsert_self {α : Type} (s : List (String × α)) (k : String)
    (v : α) : k ∈ keysOf (upsert s k v) := by
  by_cases h : k ∈ keysOf s
  · rw [keysOf_upsert_mem s k v h]; exact h
  · rw [keysOf_upsert_not_mem s k v h]; simp

/-- Helper: upserting a present key leaves the row count unchanged. -/
theorem length_upsert_mem {α : Type} (s : List (String × α)) (k : String) (v : α)
    (h : k ∈ keysOf s) : (upsert s k v).length = s.length := by
  rw [length_eq_keysOf_length, length_eq_keysOf_length s, keysOf_upsert_mem s k v h]

/-- Helper: folding upserts over a measurement batch never removes keys. -/
theorem keysOf_subset_foldl_upsert (fd : List Measurement) :
    ∀ (s : List (String × Measurement)),
      keysOf s ⊆ keysOf (fd.foldl (fun s m => upsert s m.id m) s) := by
  induction fd with
  | nil => intro s; exact fun a ha => ha
  | cons a t ih =>
    intro s
    rw [List.foldl_cons]
    exact fun x hx => ih (upsert s a.id a) (keysOf_subset_upsert s a.id a hx)

/-- Helper: after folding a batch, every batch element's id is a present key. -/
theorem mem_keysOf_foldl_upsert (fd : List Measurement) :
    ∀ (s : List (String × Measurement)) (m : Measurement), m ∈ fd →
      m.id ∈ keysOf (fd.foldl (fun s m => upsert s m.id m) s) := by
  induction fd with
  | nil => intro s m hm; cases hm
  | cons a t ih =>
    intro s m hm
    rw [List.foldl_cons]
    rcases List.mem_cons.mp hm with rfl | hm'
    · exact keysOf_subset_foldl_upsert t (upsert s m.id m)
        (mem_keysOf_upsert_self s m.id m)
    · exact ih (upsert s a.id a) m hm'

/-- Helper: when every id of the batch is already present, folding the batch
again only overwrites and keeps the key list unchanged. -/
theorem keysOf_foldl_upsert_of_mem (fd : List Measurement) :
    ∀ (s : List (String × Measurement)), (∀ m ∈ fd, m.id ∈ keysOf s) →
      keysOf (fd.foldl (fun s m => upsert s m.id m) s) = keysOf s := by
  induction fd with
  | nil => intro s _; rfl
  | cons a t ih =>
    intro s h
    rw [List.foldl_cons]
    have hk : keysOf (upsert s a.id a) = keysOf s :=
      keysOf_upsert_mem s a.id a (h a (List.mem_cons_self a t))
    rw [ih (upsert s a.id a) (fun m hm => hk ▸ h m (List.mem_cons_of_mem a hm)), hk]

/-- C7: re-ingesting the batch decoded from the identical file leaves both
tables with the same row counts as ingesting it once — the upsert merges by
primary key, so identical keys overwrite and never create duplicate rows. -/
theorem C7_reingest_same_row_count (f : NcFile) (now : ℚ) (fp : String) (db : DB) :
    (store_to_postgresql
        (store_to_postgresql db (decodeFile f now fp).1 (decodeFile f now fp).2)
        (decodeFile f now fp).1 (decodeFile f now fp).2).argo_floats.length =
      (store_to_postgresql db (decodeFile f now fp).1
        (decodeFile f now fp).2).argo_floats.length ∧
    (store_to_postgresql
        (store_to_postgresql db (decodeFile f now fp).1 (decodeFile f now fp).2)
        (decodeFile f now fp).1 (decodeFile f now fp).2).argo_profiles.length =
      (store_to_postgresql db (decodeFile f now fp).1
        (decodeFile f now fp).2).argo_profiles.length := by
  constructor
  · simp only [store_to_postgresql]
    rw [length_eq_keysOf_length, length_eq_keysOf_length
      ((decodeFile f now fp).1.foldl (fun s m => upsert s m.id m) db.argo_floats)]
    rw [keysOf_foldl_upsert_of_mem _ _
      (fun m hm => mem_keysOf_foldl_upsert (decodeFile f now fp).1 db.argo_floats m hm)]
  · simp only [store_to_postgresql]
    cases hpd : (decodeFile f now fp).2 with
    | none => rfl
    | some prof =>
      exact length_upsert_mem _ prof.id prof
        (mem_keysOf_upsert_self db.argo_profiles prof.id prof)

/-! ## C3 — embedding vector length (corrected) -/

/-- Counterexample to C3 as stated: the first text ever embedded,
`["hello", "world"]`, yields a success-path vector of length 2 (the size of
the vocabulary fit on that very text), while the failure-path fallback is the
zero vector of the configured length 1000 — so the success vector does not
have the configured fixed length and the two paths' lengths differ. -/
theorem C3_counterexample :
    ((create_vector_embedding initVectorizer ["hello", "world"]).2).length = 2 ∧
    zeroFallback.length = 1000 ∧ (2 : Nat) ≠ 1000 := by
  exact ⟨rfl, List.length_replicate 1000 0, by decide⟩

/-- C3 (amended): embed always returns a vector whose length is the frozen
vocabulary's size — for the first text, the number of its distinct tokens
capped at the configured 1000; afterwards, the fitted vocabulary's size —
while on any internal failure it returns the deterministic zero vector of
length 1000; the two lengths agree only when the vocabulary has exactly 1000
entries. -/
theorem C3_amended_embed_length (t : Text) :
    ((create_vector_embedding initVectorizer t).2).length = min 1000 t.dedup.length ∧
    (∀ (vz : Vectorizer) (vocab : List String),
      vz.vocabulary = some vocab →
      ((create_vector_embedding vz t).2).length = vocab.length) ∧
    zeroFallback.length = 1000 := by
  refine ⟨?_, ?_, List.length_replicate 1000 0⟩
  · simp [create_vector_embedding, initVectorizer, fitVocab, transform]
  · intro vz vocab h
    simp [create_vector_embedding, h, transform]

/-- Witness for the amended C3: a vectorizer already fit with the one-word
vocabulary ["warm"] embeds any later text to a length-1 vector. -/
theorem C3_amended_witness :
    exFitVectorizer.vocabulary = some ["warm"] ∧
    ((create_vector_embedding exFitVectorizer ["cold", "cold"]).2).length = 1 :=
  ⟨rfl, (C3_amended_embed_length ["cold", "cold"]).2.1 exFitVectorizer ["warm"] rfl⟩

/-! ## C8 — fit exactly once, frozen vocabulary -/

/-- C8: the vectorizer is fit exactly once, on the single first text ever
embedded: starting unfit, one embed fits the vocabulary on that text;
embedding against an already-fit vectorizer leaves its state unchanged; and
words outside the frozen vocabulary contribute zero weight — restricting any
later document to its in-vocabulary tokens yields the identical vector. -/
theorem C8_vocabulary_frozen_after_first_fit :
    (∀ t : Text, (create_vector_embedding initVectorizer t).1.vocabulary =
      some (fitVocab 1000 t)) ∧
    (∀ (vz : Vectorizer) (vocab : List String) (t : Text),
      vz.vocabulary = some vocab → (create_vector_embedding vz t).1 = vz) ∧
    (∀ (vocab : List String) (t : Text),
      transform vocab t = transform vocab (t.filter (fun w => vocab.contains w))) := by
  refine ⟨fun t => rfl, ?_, ?_⟩
  · intro vz vocab t h
    simp [create_vector_embedding, h]
  · intro vocab t
    unfold transform
    apply List.map_congr_left
    intro w hw
    rw [List.count_filter (by simpa using hw)]

/-- Witness for C8: the fit vectorizer `exFitVectorizer` is left unchanged by
embedding a new text. -/
theorem C8_witness :
    exFitVectorizer.vocabulary = some ["warm"] ∧
    (create_vector_embedding exFitVectorizer ["salty"]).1 = exFitVectorizer :=
  ⟨rfl, C8_vocabulary_frozen_after_first_fit.2.1 exFitVectorizer ["warm"] ["salty"] rfl⟩

/-! ## C9 — save/load round-trip -/

/-- C9: for every index state and query, saving the vector store and loading
the blob into a fresh index (whatever its prior state) reproduces identical
query results: the blob carries the full vector table and vectorizer state. -/
theorem C9_save_load_roundtrip_query (st : VectorStore) (vz : Vectorizer)
    (fresh_st : VectorStore) (fresh_vz : Vectorizer) (q : Text) (k : Nat) :
    search_similar_profiles
      (load_vector_store (save_vector_store st vz) fresh_st fresh_vz).1
      (load_vector_store (save_vector_store st vz) fresh_st fresh_vz).2 q k =
    search_similar_profiles st vz q k := rfl

/-! ## C4 — conjunctive filters, at most 1000 rows (corrected) -/

/-- Counterexample to C4 as stated: with the region filter provided as the
literal "Unknown", the query ignores it (line 495's
`region and region != 'Unknown'` guard) and returns a row whose region is
"North Atlantic" — a provided filter is ignored. -/
theorem C4_counterexample :
    query_argo_data [exRow] "Unknown" none none none none = [exRow] ∧
    exRow.ocean_region ≠ "Unknown" := by
  exact ⟨rfl, by decide⟩

/-- C4 (amended): for every combination of the optional filters the query
returns at most 1000 rows, and every returned row satisfies every provided
filter — except the region filter, which is applied only when the region is
non-empty and not the literal "Unknown" (such a region value is ignored). -/
theorem C4_amended_filters_conjunctive (rows : List FloatRow) (region : String)
    (start_date end_date : Option ℚ)
    (temperature_range salinity_range : Option (ℚ × ℚ)) :
    (query_argo_data rows region start_date end_date temperature_range
        salinity_range).length ≤ 1000 ∧
    ∀ r ∈ query_argo_data rows region start_date end_date temperature_range
        salinity_range,
      (region ≠ "" → region ≠ "Unknown" → r.ocean_region = region) ∧
      (∀ d, start_date = some d → d ≤ r.measurement_time) ∧
      (∀ d, end_date = some d → r.measurement_time ≤ d) ∧
      (∀ lo hi, temperature_range = some (lo, hi) →
        lo ≤ r.temperature ∧ r.temperature ≤ hi) ∧
      (∀ lo hi, salinity_range = some (lo, hi) →
        lo ≤ r.salinity ∧ r.salinity ≤ hi) := by
  constructor
  · simp only [query_argo_data]
    exact List.length_take_le 1000 _
  · intro r hr
    simp only [query_argo_data] at hr
    have hr := List.mem_of_mem_take hr
    rcases salinity_range with _ | ⟨lo5, hi5⟩ <;>
      rcases temperature_range with _ | ⟨lo4, hi4⟩ <;>
      rcases end_date with _ | d3 <;>
      rcases start_date with _ | d2 <;>
      by_cases hreg : region ≠ "" ∧ region ≠ "Unknown"
    all_goals
      first
        | rw [if_pos hreg] at hr
        | rw [if_neg hreg] at hr
    all_goals simp only [List.mem_filter, decide_eq_true_eq] at hr
    all_goals
      exact ⟨fun h1 h2 => by first
              | exact absurd ⟨h1, h2⟩ hreg
              | tauto,
             fun d hd => by first
              | exact Option.noConfusion hd
              | (simp only [Option.some.injEq] at hd; subst hd; tauto),
             fun d hd => by first
              | exact Option.noConfusion hd
              | (simp only [Option.some.injEq] at hd; subst hd; tauto),
             fun lo hi hlh => by first
              | exact Option.noConfusion hlh
              | (simp only [Option.some.injEq, Prod.mk.injEq] at hlh;
                 obtain ⟨rfl, rfl⟩ := hlh; tauto),
             fun lo hi hlh => by first
              | exact Option.noConfusion hlh
              | (simp only [Option.some.injEq, Prod.mk.injEq] at hlh;
                 obtain ⟨rfl, rfl⟩ := hlh; tauto)⟩

/-- Witness for the amended C4: with every filter provided and satisfied, the
query returns the row, and the theorem certifies the region filter held. -/
theorem C4_amended_witness :
    exRow ∈ query_argo_data [exRow] "North Atlantic" (some 0) (some 10)
      (some (0, 20)) (some (30, 40)) ∧
    exRow.ocean_region = "North Atlantic" :=
  ⟨by decide,
   ((C4_amended_filters_conjunctive [exRow] "North Atlantic" (some 0) (some 10)
      (some (0, 20)) (some (30, 40))).2 exRow (by decide)).1 (by decide) (by decide)⟩

/-! ## C6 — similarity search: count, descending order, stable ties -/

/-- Helper: a sum of squares is nonnegative. -/
theorem ssq_nonneg (u : List ℚ) : 0 ≤ ssq u := by
  unfold ssq dotQ
  induction u with
  | nil => simp
  | cons x xs ih =>
    simp only [List.zipWith_cons_cons, List.sum_cons]
    exact add_nonneg (mul_self_nonneg x) ih

/-- Helper: the descending comparison is transitive. -/
theorem simGE_trans (a b c : SearchResult) (h1 : simGE a b = true)
    (h2 : simGE b c = true) : simGE a c = true := by
  simp only [simGE, decide_eq_true_eq] at h1 h2 ⊢
  exact le_trans h2 h1

/-- Helper: the descending comparison is total. -/
theorem simGE_total (a b : SearchResult) : (simGE a b || simGE b a) = true := by
  simp only [simGE, Bool.or_eq_true, decide_eq_true_eq]
  exact le_total b.similarity.key a.similarity.key

/-- Helper: every similarity row carries a nonnegative squared-norm product. -/
theorem simRows_den2_nonneg {st : VectorStore} {qv : List ℚ} {r : SearchResult}
    (h : r ∈ simRows st qv) : 0 ≤ r.similarity.den2 := by
  unfold simRows at h
  rcases List.mem_map.mp h with ⟨e, _, rfl⟩
  exact mul_nonneg (ssq_nonneg qv) (ssq_nonneg e.2.vector)

/-- Helper: the map `t ↦ t * |t|` on ℝ is strictly monotone. -/
theorem mul_abs_lt_of_lt {x y : ℝ} (h : x < y) : x * |x| < y * |y| := by
  rcases le_or_lt 0 x with hx | hx
  · rw [abs_of_nonneg hx, abs_of_nonneg (le_of_lt (lt_of_le_of_lt hx h))]
    nlinarith
  · rcases le_or_lt 0 y with hy | hy
    · rw [abs_of_neg hx, abs_of_nonneg hy]
      nlinarith
    · rw [abs_of_neg hx, abs_of_neg hy]
      nlinarith

/-- Helper: ordering of `t * |t|` values is the ordering of the values. -/
theorem mul_abs_le_iff (x y : ℝ) : x * |x| ≤ y * |y| ↔ x ≤ y := by
  constructor
  · intro h
    by_contra hxy
    push_neg at hxy
    exact absurd h (not_le.mpr (mul_abs_lt_of_lt hxy))
  · intro h
    rcases eq_or_lt_of_le h with rfl | hlt
    · exact le_refl _
    · exact le_of_lt (mul_abs_lt_of_lt hlt)

/-- Helper: the exact rational sort key denotes `toReal * |toReal|`: the signed
square of the real cosine similarity. -/
theorem key_cast_eq (s : SimVal) (h : 0 ≤ s.den2) :
    ((s.key : ℚ) : ℝ) = s.toReal * |s.toReal| := by
  unfold SimVal.key SimVal.toReal
  by_cases hz : s.den2 = 0
  · simp [hz]
  · rw [if_neg hz]
    have hd : (0 : ℝ) < (s.den2 : ℝ) := by
      exact_mod_cast lt_of_le_of_ne h (Ne.symm hz)
    rw [abs_div, abs_of_nonneg (Real.sqrt_nonneg _), div_mul_div_comm,
      Real.mul_self_sqrt hd.le]
    push_cast
    ring

/-- Helper: a smaller sort key means a smaller real cosine similarity. -/
theorem toReal_le_of_key_le {a b : SimVal} (ha : 0 ≤ a.den2) (hb : 0 ≤ b.den2)
    (h : a.key ≤ b.key) : a.toReal ≤ b.toReal := by
  have hc : ((a.key : ℚ) : ℝ) ≤ ((b.key : ℚ) : ℝ) := by exact_mod_cast h
  rw [key_cast_eq a ha, key_cast_eq b hb] at hc
  exact (mul_abs_le_iff _ _).mp hc

/-- Helper: the search is the `top_k` prefix of the stable descending sort of
the similarity rows (also when the store is empty, where both sides are []). -/
theorem search_eq_take_mergeSort (st : VectorStore) (vz : Vectorizer)
    (q : Text) (k : Nat) :
    search_similar_profiles st vz q k =
      ((simRows st (create_vector_embedding vz q).2).mergeSort simGE).take k := by
  unfold search_similar_profiles
  cases st with
  | nil => simp [simRows]
  | cons a t => rfl

/-- C6: for every query and store with M entries, the search returns exactly
min(M, top_k) results, sorted by non-increasing real cosine similarity; the
result is the top_k prefix of the stable descending sort of the rows taken in
store (insertion) order, and any two rows tied on similarity that stand in
insertion order stay in that order in the sort; an empty store yields an empty
result. -/
theorem C6_search_topk_sorted_stable (st : VectorStore) (vz : Vectorizer)
    (q : Text) (k : Nat) :
    (search_similar_profiles st vz q k).length = min st.length k ∧
    List.Pairwise (fun a b : SearchResult =>
      b.similarity.toReal ≤ a.similarity.toReal)
      (search_similar_profiles st vz q k) ∧
    search_similar_profiles st vz q k =
      ((simRows st (create_vector_embedding vz q).2).mergeSort simGE).take k ∧
    (∀ a b : SearchResult,
      List.Sublist [a, b] (simRows st (create_vector_embedding vz q).2) →
      a.similarity.key = b.similarity.key →
      List.Sublist [a, b]
        ((simRows st (create_vector_embedding vz q).2).mergeSort simGE)) ∧
    (st = [] → search_similar_profiles st vz q k = []) := by
  refine ⟨?_, ?_, search_eq_take_mergeSort st vz q k, ?_, ?_⟩
  · rw [search_eq_take_mergeSort, List.length_take, List.length_mergeSort]
    have hlen : (simRows st (create_vector_embedding vz q).2).length = st.length := by
      simp [simRows]
    rw [hlen, Nat.min_comm]
  · rw [search_eq_take_mergeSort]
    have hsorted := List.sorted_mergeSort simGE_trans simGE_total
      (simRows st (create_vector_embedding vz q).2)
    have hpair := List.Pairwise.sublist (List.take_sublist k _) hsorted
    refine List.Pairwise.imp_of_mem ?_ hpair
    intro a b ha hb hr
    have hmem : ∀ {x : SearchResult},
        x ∈ ((simRows st (create_vector_embedding vz q).2).mergeSort simGE).take k →
        x ∈ simRows st (create_vector_embedding vz q).2 := fun hx =>
      (List.mergeSort_perm _ simGE).mem_iff.mp
        (List.Sublist.mem hx (List.take_sublist k _))
    have hkey : b.similarity.key ≤ a.similarity.key := by
      simpa [simGE] using hr
    exact toReal_le_of_key_le (simRows_den2_nonneg (hmem hb))
      (simRows_den2_nonneg (hmem ha)) hkey
  · intro a b hsub hkey
    refine List.sublist_mergeSort simGE_trans simGE_total ?_ hsub
    refine List.pairwise_cons.mpr ⟨?_, List.pairwise_singleton _ _⟩
    intro b' hb'
    rcases List.mem_singleton.mp hb' with rfl
    simp only [simGE, decide_eq_true_eq]
    exact le_of_eq hkey.symm
  · intro h
    rw [h]
    rfl

/-- Witness for C6's tie conjunct: two stored entries with identical vectors
tie on similarity for the query "warm" and stay in insertion order in the
sorted ranking. -/
theorem C6_witness :
    List.Sublist
      [{ profile_id := "prof_a", similarity := { num := 1, den2 := 1 },
         metadata := "North Atlantic", text := ["warm"] },
       { profile_id := "prof_b", similarity := { num := 1, den2 := 1 },
         metadata := "South Atlantic", text := ["warm"] }]
      ((simRows [exEntryA, exEntryB]
        (create_vector_embedding exFitVectorizer ["warm"]).2).mergeSort simGE) := by
  have hrows : simRows [exEntryA, exEntryB]
      (create_vector_embedding exFitVectorizer ["warm"]).2 =
      [{ profile_id := "prof_a", similarity := { num := 1, den2 := 1 },
         metadata := "North Atlantic", text := ["warm"] },
       { profile_id := "prof_b", similarity := { num := 1, den2 := 1 },
         metadata := "South Atlantic", text := ["warm"] }] := by
    simp [simRows, exEntryA, exEntryB, exFitVectorizer, create_vector_embedding,
      transform, dotQ, ssq]
  exact (C6_search_topk_sorted_stable [exEntryA, exEntryB] exFitVectorizer
    ["warm"] 5).2.2.2.1 _ _ (hrows ▸ List.Sublist.refl _) rfl
